import Mathlib

/-!
Verification development for the `covid19_datasets` repository.

We give a shallow embedding of the core of the repository:

* `covid19_datasets/hmd.py` — the HMD excess-mortality estimator
  (`HMDExcessMortality.get_data`, `_resample`);
* `covid19_datasets/combined.py` — the cross-source mortality reconciler
  (`_excess_mortality_data`), the interventions reconciler
  (`_create_interventions_data`), the combined-table orchestrator
  (`_create_data`, class `Combined`).

Tables are embedded as lists of records; numeric cells are `Option ℚ`
(`none` models a pandas `NaN`).  Python class-level caches are embedded as
explicit state, and for aliasing questions an explicit heap (addresses into
a store) is used.
-/

set_option autoImplicit false

namespace Covid19

/-! ## HMD weekly mortality table (`hmd.py`)

A row of the raw STMF table after `_load_dataset`: columns
`ISO, Year, Week, Sex, D0_14, D15_64, D65_74, D75_84, D85p, DTotal`.
The six death-count columns are kept as a list `vals`; index `5` is
`DTotal`.  A missing count (pandas `NaN`) is `none`. -/
structure WRow where
  iso : String
  sex : String
  year : Int
  week : Int
  vals : List (Option ℚ)
  deriving Repr, DecidableEq

/-- Number of age-band death columns (`D0_14 … DTotal`). -/
def nCols : Nat := 6

/-- Index of the `DTotal` column inside `WRow.vals`. -/
def dTotalIdx : Nat := 5

/-- `df.query('Year < 2020 and Year >= 2015')` restricted to one
`(country_code, sex, epi_week)` stratum: the reference rows that the
`groupby(key_cols)` of `HMDExcessMortality.get_data` places in the group
keyed by `(iso, sex, week)`. -/
def refRows (df : List WRow) (iso sex : String) (week : Int) : List WRow :=
  df.filter fun r =>
    r.year < 2020 && r.year ≥ 2015 && r.iso == iso && r.sex == sex && r.week == week

/-- The non-missing values of column `i` of a list of rows (pandas
aggregation skips `NaN` cells). -/
def colVals (rows : List WRow) (i : Nat) : List ℚ :=
  rows.filterMap fun r => r.vals.getD i none

/-- Per-column `mean()` of a group, as pandas computes it: the mean of the
non-missing cells; `NaN` (here `none`) when the group has no value. -/
def colMean (rows : List WRow) (i : Nat) : Option ℚ :=
  let vs := colVals rows i
  if vs.isEmpty then none else some (vs.sum / vs.length)

/-- The `Baseline` of `HMDExcessMortality.get_data`: the grouped mean of
column `i` over the 2015–2019 reference rows of stratum
`(iso, sex, week)`. -/
def baseline (df : List WRow) (iso sex : String) (week : Int) (i : Nat) : Option ℚ :=
  colMean (refRows df iso sex week) i

/-- Pandas `current - baseline` on one aligned row: cellwise subtraction,
`NaN` when either side is missing. -/
def subRow (cur : List (Option ℚ)) (base : Nat → Option ℚ) : List (Option ℚ) :=
  (List.range nCols).map fun i =>
    match cur.getD i none, base i with
    | some v, some b => some (v - b)
    | _, _ => none

/-- `excess['Sex'].replace({'b': 'Total', 'm': 'Male', 'f': 'Female'})` on
one label. -/
def normSex (s : String) : String :=
  if s = "b" then "Total" else if s = "m" then "Male" else if s = "f" then "Female" else s

/-- `excess[ISO].replace({'DEUTNP': 'DEU'})` on one code. -/
def normIso (s : String) : String :=
  if s = "DEUTNP" then "DEU" else s

/-- A weekly excess-mortality record produced by
`HMDExcessMortality.get_data` (without the `daily` resampling): the six
excess columns, with `vals` index `5` the renamed `deaths_excess_weekly`,
and the derived `deaths_excess_daily_avg`. -/
structure ERow where
  iso : String
  sex : String
  week : Int
  vals : List (Option ℚ)
  dailyAvg : Option ℚ
  deriving Repr, DecidableEq

/-- `HMDExcessMortality.get_data` (non-daily path), embedded from
`hmd.py` lines 80–97: partition into reference (2015–2019) and current
(2020) sets, subtract the grouped baseline from each current row,
drop rows that are missing in every column (`dropna(how='all')`,
which also removes baseline-only strata since their current side is
missing in every column), normalise the sex labels, derive
`deaths_excess_daily_avg = deaths_excess_weekly / 7.0`, and replace the
pooled-population code `DEUTNP` by `DEU`. -/
def getData (df : List WRow) : List ERow :=
  (df.filter fun r => r.year == 2020).filterMap fun r =>
    let ev := subRow r.vals (baseline df r.iso r.sex r.week)
    if ev.all Option.isNone then none
    else some { iso := normIso r.iso, sex := normSex r.sex, week := r.week,
                vals := ev, dailyAvg := (ev.getD dTotalIdx none).map (· / 7) }

/-! ## Daily resampling (`_resample`, `hmd.py` lines 42–49)

One row of a `(ISO, Sex)` group of the weekly excess table: the week-end
`DATE` (a calendar day, embedded as an integer day number, so consecutive
calendar days differ by 1) and the `deaths_excess_daily_avg` cell. -/
structure DRow where
  date : Int
  dailyAvg : Option ℚ
  deriving Repr, DecidableEq

/-- `grouped_df.DATE.min()` (0 for an empty group; `_resample` is only
applied to nonempty groups). -/
def minDate (rows : List DRow) : Int := ((rows.map DRow.date).min?).getD 0

/-- `grouped_df.DATE.max()`. -/
def maxDate (rows : List DRow) : Int := ((rows.map DRow.date).max?).getD 0

/-- `pd.date_range(lo, hi, freq='D')`: every calendar day from `lo` to
`hi` inclusive. -/
def dateRange (lo hi : Int) : List Int :=
  (List.range (hi - lo + 1).toNat).map fun i => lo + i

/-- The `reindex` lookup: the `deaths_excess_daily_avg` cell at day `d`,
`none` when the group has no row for `d` (reindexing inserts a `NaN`
row).  `_resample` is applied to groups with distinct `DATE`s (pandas
`reindex` refuses duplicate labels), so `find?` is the row. -/
def lookupDate (rows : List DRow) (d : Int) : Option ℚ :=
  match rows.find? (fun r => r.date == d) with
  | some r => r.dailyAvg
  | none => none

/-- Scan the days `d+1, d+2, …` (at most `fuel` of them) for the first
day holding a value: the "next valid observation" that a backward fill
takes its value from. -/
def findNextVal (vals : Int → Option ℚ) (d : Int) : Nat → Option (Int × ℚ)
  | 0 => none
  | fuel + 1 =>
    match vals (d + 1) with
    | some v => some (d + 1, v)
    | none => findNextVal vals (d + 1) fuel

/-- `Series.bfill(limit=7)` at day `d` of an index ending at `hi`: a
present value stays; a missing value is taken from the next valid
observation below, provided it is at most 7 rows away (pandas fills at
most `limit` consecutive `NaN`s next to each valid value). -/
def bfillLimit7 (vals : Int → Option ℚ) (hi d : Int) : Option ℚ :=
  match vals d with
  | some v => some v
  | none => (findNextVal vals d (min 7 (hi - d).toNat)).map Prod.snd

/-- `_resample` on one `(ISO, Sex)` group, restricted to the
`deaths_excess_daily_avg` column: reindex onto every day of
`[min DATE - 6, max DATE]`, then `bfill(limit=7)`. -/
def resample (rows : List DRow) : List (Int × Option ℚ) :=
  (dateRange (minDate rows - 6) (maxDate rows)).map fun d =>
    (d, bfillLimit7 (lookupDate rows) (maxDate rows) d)

/-! ## Combined table (`combined.py`)

A time-series row: key `(iso, date)`, the policy table's `CountryName`
(unused by the other sources), and the attribute cells. -/
structure Row where
  iso : String
  date : Int
  name : String
  vals : List (Option ℚ)
  deriving Repr, DecidableEq, Inhabited

/-- A static row, keyed by country alone (demographics, reference
indicators). -/
structure SRow where
  iso : String
  vals : List (Option ℚ)
  deriving Repr, DecidableEq

/-- `t.merge(s, on=[ISO, DATE], how='left')`: every anchor row of `t` is
kept; a matching row of `s` contributes its `w` cells, a missing match
contributes `w` `NaN`s, and `k` matches repeat the anchor row `k`
times. -/
def mergeTS (w : Nat) (t s : List Row) : List Row :=
  t.flatMap fun b =>
    match s.filter (fun c => c.iso == b.iso && c.date == b.date) with
    | [] => [{ b with vals := b.vals ++ List.replicate w none }]
    | ms => ms.map fun c => { b with vals := b.vals ++ c.vals }

/-- `t.merge(s, on=ISO, how='left')` against a static table. -/
def mergeStatic (w : Nat) (t : List Row) (s : List SRow) : List Row :=
  t.flatMap fun b =>
    match s.filter (fun c => c.iso == b.iso) with
    | [] => [{ b with vals := b.vals ++ List.replicate w none }]
    | ms => ms.map fun c => { b with vals := b.vals ++ c.vals }

/-- `fillna(0.)` on one row. -/
def fillZeroRow (r : Row) : Row :=
  { r with vals := r.vals.map fun v => some (v.getD 0) }

/-- `fillna(0.)` on a table. -/
def fillZero (t : List Row) : List Row := t.map fillZeroRow

/-- The rows before position `i` that `groupby(level=0)` places in the
same (country) group as row `i`. -/
def prevSameIso (t : List Row) (i : Nat) : List Row :=
  (t.take i).filter fun p => p.iso == (t.getD i default).iso

/-- The value a forward fill propagates into a gap: the last non-missing
cell of column `j` among the given earlier rows. -/
def lastVal (rows : List Row) (j : Nat) : Option ℚ :=
  (rows.filterMap fun r => r.vals.getD j none).getLast?

/-- `groupby(level=0).ffill()`: row order and shape are preserved; a
missing cell takes the most recent non-missing cell of the same column
among earlier rows of the same country. -/
def ffillByIso (t : List Row) : List Row :=
  (List.range t.length).map fun i =>
    let r := t.getD i default
    { r with vals := (List.range r.vals.length).map fun j =>
        match r.vals.getD j none with
        | some v => some v
        | none => lastVal (prevSameIso t i) j }

/-- `_create_interventions_data`: left-merge the mask table (one `Masks`
column) onto the policy table on `(ISO, DATE)`, forward-fill per
country, then `fillna(0.)`. -/
def createInterventions (pol masks : List Row) : List Row :=
  fillZero (ffillByIso (mergeTS 1 pol masks))

/-! ### Cross-source mortality reconciler (`_excess_mortality_data`) -/

/-- A row of the Economist country-level daily excess table. -/
structure EconRow where
  iso : String
  date : Int
  dailyAvg : Option ℚ
  weekly : Option ℚ
  deriving Repr, DecidableEq

/-- A row of the EuroStats daily excess table (before the
`SEX == "Total" and AGE == "Total"` filter and the column renaming). -/
structure EuroRow where
  iso : String
  date : Int
  sex : String
  age : String
  excessMortality : Option ℚ
  excessMortalityDailyAverage : Option ℚ
  deriving Repr, DecidableEq

/-- A raised Python exception. -/
inductive PyError where
  | typeError : String → PyError
  | valueError : String → PyError
  deriving Repr, DecidableEq

instance {ε α : Type} [DecidableEq ε] [DecidableEq α] : DecidableEq (Except ε α) := fun x y =>
  match x, y with
  | Except.ok a, Except.ok b =>
    if h : a = b then Decidable.isTrue (by rw [h])
    else Decidable.isFalse (fun hc => h (Except.ok.inj hc))
  | Except.error e, Except.error f =>
    if h : e = f then Decidable.isTrue (by rw [h])
    else Decidable.isFalse (fun hc => h (Except.error.inj hc))
  | Except.ok _, Except.error _ => Decidable.isFalse (fun hc => Except.noConfusion hc)
  | Except.error _, Except.ok _ => Decidable.isFalse (fun hc => Except.noConfusion hc)

/-- `_ECONOMIST_EXCLUDE`. -/
def economistExclude : List String := ["AUT", "BEL", "CHE", "DNK", "NOR"]

/-- `_EUROSTATS_EXCLUDE`. -/
def eurostatsExclude : List String := ["ESP", "PRT", "SWE"]

/-- CPython semantics of the expression `'…' + intersection` on
`combined.py` line 73, where `intersection` is a `set` of strings:
`str.__add__` does not accept a `set`, so evaluating the argument of
`ValueError(...)` raises `TypeError` — the intended message naming the
offending codes is never built. -/
def strPlusSet (_s : String) (_codes : List String) : Except PyError String :=
  Except.error (PyError.typeError "can only concatenate str to str")

/-- `_excess_mortality_data`: filter each source by its exclusion list
(and EuroStats to the Total/Total stratum), check the country
intersection, and either raise or concatenate the two sources projected
to the shared schema `[excess_death_daily_avg, weekly_excess_deaths]`. -/
def excessMortalityData (econ : List EconRow) (euro : List EuroRow) :
    Except PyError (List Row) :=
  let econ2 := econ.filter fun r => !(economistExclude.contains r.iso)
  let euro1 := euro.filter fun r => r.sex == "Total" && r.age == "Total"
  let euro2 := euro1.filter fun r => !(eurostatsExclude.contains r.iso)
  let inter := (euro2.map EuroRow.iso).filter fun c => (econ2.map EconRow.iso).contains c
  if inter.isEmpty then
    Except.ok
      ((econ2.map fun r => { iso := r.iso, date := r.date, name := "", vals := [r.dailyAvg, r.weekly] }) ++
       (euro2.map fun r => { iso := r.iso, date := r.date, name := "",
                             vals := [r.excessMortalityDailyAverage, r.excessMortality] }))
  else
    match strPlusSet "Found duplicated ISOs in Economist and EuroStats excess mortality data: " inter with
    | Except.ok msg => Except.error (PyError.valueError msg)
    | Except.error e => Except.error e

/-! ### Combined-table orchestrator (`_create_data`, class `Combined`) -/

/-- The upstream environment a build runs against: the post-drop tables
each adapter returns, together with each source's column count (used to
pad non-matching rows with `NaN`s). -/
structure Env where
  pol : List Row
  masks : List Row
  cases : List Row
  mob : List Row
  ages : List SRow
  refs : List SRow
  econ : List EconRow
  euro : List EuroRow
  wCases : Nat
  wMob : Nat
  wAges : Nat
  wRefs : Nat
  deriving Repr, DecidableEq

/-- The join sequence of `_create_data` once the reconciled mortality
table is in hand: interventions, then cases (zero-filled), then
mobility, demographics, reference indicators and excess mortality. -/
def createDataJoins (env : Env) (mort : List Row) : List Row :=
  mergeTS 2
    (mergeStatic env.wRefs
      (mergeStatic env.wAges
        (mergeTS env.wMob
          (fillZero (mergeTS env.wCases (createInterventions env.pol env.masks) env.cases))
          env.mob)
        env.ages)
      env.refs)
    mort

/-- `_create_data`: the full build, propagating the reconciler's
exception. -/
def createData (env : Env) : Except PyError (List Row) :=
  (excessMortalityData env.econ env.euro).map (createDataJoins env)

/-- The class-level state of `Combined`: the `_data` slot, plus an
instrumentation counter of how many times `_create_data` (and with it
every adapter) has been invoked. -/
structure CState where
  cache : Option (List Row)
  buildCount : Nat
  deriving Repr, DecidableEq

/-- `Combined.__init__`: the literal embedding of
`if Combined._data is None or force_load: Combined._data = _create_data()`
with the outcome of `_create_data()` abstract, so that a failure of any
stage of the build is covered.  The right-hand side is evaluated in full
before the slot is assigned, so on an exception the slot keeps its prior
value and the exception propagates. -/
def combinedInitG {α : Type} (cache : Option α) (forceLoad : Bool)
    (build : Except PyError α) : Except PyError Unit × Option α :=
  if cache.isNone || forceLoad then
    match build with
    | Except.ok t => (Except.ok (), some t)
    | Except.error e => (Except.error e, cache)
  else (Except.ok (), cache)

/-- `Combined.__init__` run against an environment, counting builds. -/
def combinedCtor (st : CState) (force : Bool) (env : Env) :
    Except PyError Unit × CState :=
  if st.cache.isNone || force then
    match createData env with
    | Except.ok t => (Except.ok (), { cache := some t, buildCount := st.buildCount + 1 })
    | Except.error e => (Except.error e, { st with buildCount := st.buildCount + 1 })
  else (Except.ok (), st)

/-- `Combined.get_data`: returns the class-level `_data` slot. -/
def getDataC (st : CState) : Option (List Row) := st.cache

/-! ## Aliasing model

Python dataframes are mutable objects on a heap; a class-level cache slot
holds a *reference* to one.  To settle whether an accessor's result
shares storage with the cache we make the heap explicit: a store of
objects addressed by `Nat`, a table-valued slot being an
`Option Nat`. -/

/-- A Python object that the HMD adapter's heap can hold: the raw STMF
table or a derived excess table. -/
inductive PyObj where
  | raw : List WRow → PyObj
  | derived : List ERow → PyObj
  deriving Repr, DecidableEq

instance : Inhabited PyObj := ⟨PyObj.raw []⟩

/-- A heap of mutable objects. -/
structure Store (α : Type) where
  heap : List α
  deriving Repr, DecidableEq

/-- Allocate a fresh object, returning its address. -/
def alloc {α : Type} (σ : Store α) (t : α) : Store α × Nat :=
  ({ heap := σ.heap ++ [t] }, σ.heap.length)

/-- Dereference an address. -/
def readRef {α : Type} [Inhabited α] (σ : Store α) (r : Nat) : α :=
  σ.heap.getD r default

/-- Mutate the object at an address in place. -/
def writeRef {α : Type} (σ : Store α) (r : Nat) (t : α) : Store α :=
  { heap := σ.heap.set r t }

/-- `HMDExcessMortality.__init__` on the heap: when the class slot is
empty (or `force_load`), allocate the downloaded table and point the
slot at it. -/
def hmdInit (σ : Store PyObj) (cache : Option Nat) (force : Bool)
    (downloaded : List WRow) : Store PyObj × Option Nat :=
  if cache.isNone || force then
    let p := alloc σ (PyObj.raw downloaded)
    (p.1, some p.2)
  else (σ, cache)

/-- `HMDExcessMortality.get_raw_data` — `return HMDExcessMortality.data`:
the caller receives the very reference stored in the class slot, not a
copy. -/
def getRawDataRef (cache : Option Nat) : Option Nat := cache

/-- `Combined.get_data` — `return Combined._data`: the same
return-the-slot pattern. -/
def getDataCombinedRef (cache : Option Nat) : Option Nat := cache

/-- `HMDExcessMortality.get_data` on the heap: the pandas pipeline
(`query`/`groupby`/arithmetic/`rename`) builds new frames, so the result
is a freshly allocated object. -/
def getDataHeap (σ : Store PyObj) (cache : Option Nat) :
    Store PyObj × Option Nat :=
  match cache with
  | none => (σ, none)
  | some r =>
    match readRef σ r with
    | PyObj.raw df =>
      let p := alloc σ (PyObj.derived (getData df))
      (p.1, some p.2)
    | PyObj.derived _ => (σ, none)

/-! ## Concrete instances used as witnesses -/

/-- A synthetic STMF row for country `AAA`, sex `b`, week 1, with only the
`DTotal` column populated. -/
def wRef (y : Int) (q : ℚ) : WRow :=
  { iso := "AAA", sex := "b", year := y, week := 1,
    vals := [none, none, none, none, none, some q] }

/-- Synthetic raw table: reference-year weekly counts `[10, 20, 30, 40, 50]`
for 2015–2019 and a current-year (2020) count of 45, all for the stratum
`(AAA, b, week 1)`. -/
def testDf : List WRow :=
  [wRef 2015 10, wRef 2016 20, wRef 2017 30, wRef 2018 40, wRef 2019 50, wRef 2020 45]

/-- The single excess record `getData testDf` produces. -/
def testERow : ERow :=
  { iso := "AAA", sex := "Total", week := 1,
    vals := [none, none, none, none, none, some 15], dailyAvg := some (15 / 7) }

/-- A `(ISO, Sex)` group with week-end days 7 and 21 (the week ending on
day 14 is absent). -/
def grpT2 : List DRow :=
  [{ date := 7, dailyAvg := some 1 }, { date := 21, dailyAvg := some 2 }]

/-- Economist source containing country `XYZ`. -/
def econXYZ : List EconRow :=
  [{ iso := "XYZ", date := 0, dailyAvg := some 1, weekly := some 7 }]

/-- EuroStats source containing country `XYZ` in the Total/Total stratum. -/
def euroXYZ : List EuroRow :=
  [{ iso := "XYZ", date := 0, sex := "Total", age := "Total",
     excessMortality := some 7, excessMortalityDailyAverage := some 1 }]

/-- EuroStats source containing only country `ABC` (disjoint from
`econXYZ`). -/
def euroABC : List EuroRow :=
  [{ iso := "ABC", date := 0, sex := "Total", age := "Total",
     excessMortality := some 7, excessMortalityDailyAverage := some 1 }]

/-- An environment whose two mortality sources overlap on `XYZ`: the
build fails. -/
def envBad : Env :=
  { pol := [], masks := [], cases := [], mob := [], ages := [], refs := [],
    econ := econXYZ, euro := euroXYZ, wCases := 0, wMob := 0, wAges := 0, wRefs := 0 }

/-- An environment on which the build succeeds (with an empty result). -/
def envGood : Env :=
  { pol := [], masks := [], cases := [], mob := [], ages := [], refs := [],
    econ := [], euro := [], wCases := 0, wMob := 0, wAges := 0, wRefs := 0 }

/-- A one-row raw table for the aliasing scenarios. -/
def wSmall : WRow :=
  { iso := "AAA", sex := "b", year := 2020, week := 1, vals := [some 1] }

/-- The `(country_code, date)` key column of a time-series table. -/
def keysTS (t : List Row) : List (String × Int) := t.map fun r => (r.iso, r.date)

/-- Cell of a table at row position `i`, attribute column `j`. -/
def cellAt (t : List Row) (i j : Nat) : Option ℚ := (t.getD i default).vals.getD j none

/-- The spec's end-to-end example: policy rows
`(ISO=AAA, 2020-01-01, Stringency=10)` and `(ISO=AAA, 2020-01-03,
Stringency=20)`, days numbered from 2020-01-01 = 1. -/
def polT : List Row :=
  [{ iso := "AAA", date := 1, name := "Aland", vals := [some 10] },
   { iso := "AAA", date := 3, name := "Aland", vals := [some 20] }]

/-- A mask table with a single row `(AAA, 2020-01-01, Masks=5)`. -/
def maskT : List Row :=
  [{ iso := "AAA", date := 1, name := "", vals := [some 5] }]

/-- Row 1 of `mergeTS 1 polT maskT`. -/
def mrow1 : Row := { iso := "AAA", date := 1, name := "Aland", vals := [some 10, some 5] }

/-- Row 2 of `mergeTS 1 polT maskT` (no mask match: trailing `NaN`). -/
def mrow2 : Row := { iso := "AAA", date := 3, name := "Aland", vals := [some 20, none] }

/-- An environment whose only nonempty source is the policy table. -/
def envPol : Env :=
  { pol := polT, masks := [], cases := [], mob := [], ages := [], refs := [],
    econ := [], euro := [], wCases := 0, wMob := 0, wAges := 0, wRefs := 0 }

/-! ## Helper lemmas -/

theorem getD_map_range {β : Type} (g : Nat → β) (dflt : β) {n i : Nat} (h : i < n) :
    ((List.range n).map g).getD i dflt = g i := by
  rw [List.getD_eq_getElem?_getD, List.getElem?_map, List.getElem?_range h]
  rfl

theorem mem_of_getD_some {β : Type} {l : List (Option β)} {i : Nat} {x : β}
    (h : l.getD i none = some x) : some x ∈ l := by
  rw [List.getD_eq_getElem?_getD] at h
  cases hg : l[i]? with
  | none => rw [hg] at h; simp at h
  | some o => rw [hg] at h; simp only [Option.getD_some] at h; subst h; exact List.getElem?_mem hg

theorem subRow_getD (cur : List (Option ℚ)) (base : Nat → Option ℚ) {i : Nat}
    (h : i < nCols) :
    (subRow cur base).getD i none =
      match cur.getD i none, base i with
      | some v, some b => some (v - b)
      | _, _ => none := by
  unfold subRow
  exact getD_map_range _ _ h

/-- Evaluation: on `testDf` the baseline of `(AAA, b, week 1)` in the
`DTotal` column is `(10 + 20 + 30 + 40 + 50) / 5 = 30`. -/
theorem baseline_testDf : baseline testDf "AAA" "b" 1 5 = some 30 := by
  have h1 : colVals (refRows testDf "AAA" "b" 1) 5 = [10, 20, 30, 40, 50] := by decide
  unfold baseline colMean
  rw [h1]
  norm_num

/-- Evaluation: the excess row of `testDf`'s current-year row. -/
theorem subRow_testDf :
    subRow (wRef 2020 45).vals (baseline testDf "AAA" "b" 1) =
      [none, none, none, none, none, some 15] := by
  have h0 : baseline testDf "AAA" "b" 1 0 = none := by decide
  have h1 : baseline testDf "AAA" "b" 1 1 = none := by decide
  have h2 : baseline testDf "AAA" "b" 1 2 = none := by decide
  have h3 : baseline testDf "AAA" "b" 1 3 = none := by decide
  have h4 : baseline testDf "AAA" "b" 1 4 = none := by decide
  simp only [subRow, nCols]
  rw [show List.range 6 = [0, 1, 2, 3, 4, 5] from rfl]
  simp only [List.map_cons, List.map_nil]
  rw [h0, h1, h2, h3, h4, baseline_testDf]
  norm_num [wRef]

/-- Evaluation: `getData testDf` is the single record `testERow`. -/
theorem getData_testDf : getData testDf = [testERow] := by
  unfold getData
  rw [show testDf.filter (fun r => r.year == 2020) = [wRef 2020 45] from by decide]
  simp only [List.filterMap_cons, List.filterMap_nil]
  rw [show (wRef 2020 45).iso = "AAA" from rfl, show (wRef 2020 45).sex = "b" from rfl,
      show (wRef 2020 45).week = (1 : Int) from rfl]
  rw [subRow_testDf, show normIso "AAA" = "AAA" from by decide,
      show normSex "b" = "Total" from by decide]
  norm_num [testERow, dTotalIdx]

/-! ## Claims about the estimator -/

/-- **C1.** For every `(country_code, sex, epi_week)` stratum, the baseline
of `HMDExcessMortality.get_data` is the arithmetic mean of the stratum's
weekly counts over the reference years, per age-band column independently,
and each current-year row yields an output record whose excess in that
column is the current value minus that baseline. -/
theorem hmd_baseline_mean_excess (df : List WRow) (r : WRow) (hr : r ∈ df)
    (hy : r.year = 2020) (i : Nat) (hi : i < nCols) (v : ℚ) (l : List ℚ)
    (hl : colVals (refRows df r.iso r.sex r.week) i = l) (hne : l ≠ [])
    (hcur : r.vals.getD i none = some v) :
    baseline df r.iso r.sex r.week i = some (l.sum / l.length) ∧
    ∃ e ∈ getData df, e.iso = normIso r.iso ∧ e.sex = normSex r.sex ∧
      e.week = r.week ∧ e.vals.getD i none = some (v - l.sum / l.length) := by
  have hbase : baseline df r.iso r.sex r.week i = some (l.sum / l.length) := by
    unfold baseline colMean
    rw [hl]
    simp [List.isEmpty_iff, hne]
  refine ⟨hbase, ?_⟩
  set ev := subRow r.vals (baseline df r.iso r.sex r.week) with hev
  have hevi : ev.getD i none = some (v - l.sum / l.length) := by
    rw [hev, subRow_getD _ _ hi, hcur, hbase]
  have hall : ¬ (ev.all Option.isNone = true) := by
    intro hco
    have := List.all_eq_true.1 hco _ (mem_of_getD_some hevi)
    simp at this
  refine ⟨{ iso := normIso r.iso, sex := normSex r.sex, week := r.week,
            vals := ev, dailyAvg := (ev.getD dTotalIdx none).map (· / 7) },
          ?_, rfl, rfl, rfl, hevi⟩
  unfold getData
  apply List.mem_filterMap.2
  refine ⟨r, List.mem_filter.2 ⟨hr, by simp [hy]⟩, ?_⟩
  simp only [← hev]
  rw [if_neg hall]

/-- Witness for C1: reference counts `[10, 20, 30, 40, 50]` give baseline
30, and a current value of 45 gives excess 15. -/
theorem hmd_baseline_mean_excess_witness :
    baseline testDf "AAA" "b" 1 5 = some 30 ∧
    ∃ e ∈ getData testDf, e.iso = "AAA" ∧ e.sex = "Total" ∧ e.week = 1 ∧
      e.vals.getD 5 none = some 15 := by
  have h := hmd_baseline_mean_excess testDf (wRef 2020 45) (by decide) rfl 5 (by decide)
    45 [10, 20, 30, 40, 50] (by decide) (by decide) (by decide)
  norm_num [wRef, normIso, normSex] at h
  simpa using h

/-- **C6.** On every record produced by the estimator,
`daily_avg = weekly_excess / 7`, hence `daily_avg * 7` recovers the weekly
excess exactly (rationals embed the arithmetic with no rounding). -/
theorem hmd_daily_avg_times_seven (df : List WRow) (e : ERow) (he : e ∈ getData df) :
    e.dailyAvg = (e.vals.getD dTotalIdx none).map (· / 7) ∧
    e.dailyAvg.map (· * 7) = e.vals.getD dTotalIdx none := by
  unfold getData at he
  obtain ⟨r, _, hfr⟩ := List.mem_filterMap.1 he
  dsimp only at hfr
  by_cases hall : (subRow r.vals (baseline df r.iso r.sex r.week)).all Option.isNone = true
  · rw [if_pos hall] at hfr
    cases hfr
  · rw [if_neg hall] at hfr
    obtain rfl := Option.some.inj hfr
    refine ⟨rfl, ?_⟩
    cases hv : (subRow r.vals (baseline df r.iso r.sex r.week)).getD dTotalIdx none with
    | none => simp [hv]
    | some w =>
      simp only [hv, Option.map_some']
      rw [div_mul_cancel₀ w (by norm_num : (7 : ℚ) ≠ 0)]

/-- Witness for C6 on the synthetic table: `15 / 7 * 7 = 15`. -/
theorem hmd_daily_avg_times_seven_witness :
    testERow.dailyAvg = (testERow.vals.getD dTotalIdx none).map (· / 7) ∧
    testERow.dailyAvg.map (· * 7) = testERow.vals.getD dTotalIdx none :=
  hmd_daily_avg_times_seven testDf testERow (by rw [getData_testDf]; exact List.mem_singleton.2 rfl)

/-- **C10.** `HMDExcessMortality.get_data` hard-codes the current year 2020
and the reference window 2015–2019: rows of any other year contribute to
neither the baseline nor the output. -/
theorem hmd_year_window_fixed (df extra : List WRow)
    (h : ∀ r ∈ extra, r.year < 2015 ∨ 2020 < r.year) :
    getData (df ++ extra) = getData df := by
  have hfilt : (df ++ extra).filter (fun r => r.year == 2020)
      = df.filter (fun r => r.year == 2020) := by
    have hnil : extra.filter (fun r => r.year == 2020) = [] := by
      apply List.filter_eq_nil_iff.2
      intro r hr
      rcases h r hr with h1 | h1 <;> simp <;> omega
    rw [List.filter_append, hnil, List.append_nil]
  have href : ∀ iso sex week, refRows (df ++ extra) iso sex week = refRows df iso sex week := by
    intro iso sex week
    unfold refRows
    have hnil : extra.filter
        (fun r => r.year < 2020 && r.year ≥ 2015 && r.iso == iso && r.sex == sex && r.week == week)
        = [] := by
      apply List.filter_eq_nil_iff.2
      intro r hr
      rcases h r hr with h1 | h1 <;> simp <;> intro h2 <;> omega
    rw [List.filter_append, hnil, List.append_nil]
  unfold getData
  rw [hfilt]
  apply List.filterMap_congr
  intro r _
  have hb : baseline (df ++ extra) r.iso r.sex r.week = baseline df r.iso r.sex r.week := by
    funext i
    unfold baseline
    rw [href]
  rw [hb]

/-- Witness for C10: a 2021 row changes nothing. -/
theorem hmd_year_window_fixed_witness :
    getData (testDf ++ [wRef 2021 99]) = getData testDf :=
  hmd_year_window_fixed testDf [wRef 2021 99] (by decide)

/-! ## Claims about the reconciler and the orchestrator -/

/-- **C2 (bug).**  With both post-exclusion sources containing `XYZ`, the
reconciler does fail — but with a `TypeError` raised while evaluating
`'…' + intersection` (a `str` plus a `set`), not with the intended
`ValueError` identifying the offending codes; with disjoint sources it
concatenates without error. -/
theorem reconciler_duplicate_raises_type_error :
    excessMortalityData econXYZ euroXYZ =
      Except.error (PyError.typeError "can only concatenate str to str") ∧
    (∀ msg, excessMortalityData econXYZ euroXYZ ≠ Except.error (PyError.valueError msg)) ∧
    excessMortalityData econXYZ euroABC =
      Except.ok [{ iso := "XYZ", date := 0, name := "", vals := [some 1, some 7] },
                 { iso := "ABC", date := 0, name := "", vals := [some 1, some 7] }] := by
  refine ⟨by decide, ?_, by decide⟩
  intro msg h
  rw [show excessMortalityData econXYZ euroXYZ =
      Except.error (PyError.typeError "can only concatenate str to str") from by decide] at h
  cases h

/-- **C8.** If the build raises, the exception propagates and the
class-level cache slot is left in its prior state; in particular nothing
is cached when the first build fails.  Stated both for the literal
`__init__` embedding with an arbitrary failing build (`combinedInitG`)
and for the full pipeline (`combinedCtor`), whose build fails on
`_excess_mortality_data`'s failing inputs. -/
theorem combined_build_failure_preserves_cache {α : Type} (cache : Option α)
    (force : Bool) (err : PyError) (st : CState) (env : Env)
    (hb : createData env = Except.error err) :
    (combinedInitG cache force (Except.error err)).2 = cache ∧
    ((cache.isNone || force) = true →
      combinedInitG cache force (Except.error err) = (Except.error err, cache)) ∧
    (combinedCtor st force env).2.cache = st.cache ∧
    (st.cache = none → getDataC (combinedCtor st force env).2 = none) ∧
    ((st.cache.isNone || force) = true →
      (combinedCtor st force env).1 = Except.error err) := by
  by_cases h : (cache.isNone || force) = true
  · by_cases h2 : (st.cache.isNone || force) = true
    · refine ⟨by simp [combinedInitG, h], fun _ => by simp [combinedInitG, h], ?_, ?_, ?_⟩ <;>
        simp [combinedCtor, h2, hb, getDataC]
    · refine ⟨by simp [combinedInitG, h], fun _ => by simp [combinedInitG, h], ?_, ?_, ?_⟩ <;>
        simp [combinedCtor, h2, hb, getDataC]
  · by_cases h2 : (st.cache.isNone || force) = true
    · refine ⟨by simp [combinedInitG, h], fun hc => absurd hc h, ?_, ?_, ?_⟩ <;>
        simp [combinedCtor, h2, hb, getDataC]
    · refine ⟨by simp [combinedInitG, h], fun hc => absurd hc h, ?_, ?_, ?_⟩ <;>
        simp [combinedCtor, h2, hb, getDataC]

/-- Witness for C8 at the duplicate-coverage failing environment. -/
theorem combined_build_failure_preserves_cache_witness :
    (combinedInitG (none : Option (List Row)) false
        (Except.error (PyError.typeError "can only concatenate str to str"))).2 = none ∧
    ((Option.isNone (none : Option (List Row)) || false) = true →
      combinedInitG (none : Option (List Row)) false
          (Except.error (PyError.typeError "can only concatenate str to str")) =
        (Except.error (PyError.typeError "can only concatenate str to str"), none)) ∧
    (combinedCtor ⟨none, 0⟩ false envBad).2.cache = (⟨none, 0⟩ : CState).cache ∧
    ((⟨none, 0⟩ : CState).cache = none → getDataC (combinedCtor ⟨none, 0⟩ false envBad).2 = none) ∧
    (((⟨none, 0⟩ : CState).cache.isNone || false) = true →
      (combinedCtor ⟨none, 0⟩ false envBad).1 =
        Except.error (PyError.typeError "can only concatenate str to str")) :=
  combined_build_failure_preserves_cache none false
    (PyError.typeError "can only concatenate str to str") ⟨none, 0⟩ envBad (by decide)

/-- **C9.** Without `force_load` the table is built once and reused: the
second construction leaves the state untouched and both `get_data` calls
return the same table.  With `force_load` the build runs again
(re-invoking every adapter — the build counter increments), and since the
build is a function of the upstream environment, the result can differ
only if the environment changed. -/
theorem combined_cache_idempotent_and_reload (env env2 : Env) (t t2 : List Row)
    (h : createData env = Except.ok t) (h2 : createData env2 = Except.ok t2) :
    (combinedCtor ⟨none, 0⟩ false env).2 = ⟨some t, 1⟩ ∧
    (combinedCtor (combinedCtor ⟨none, 0⟩ false env).2 false env).2 = ⟨some t, 1⟩ ∧
    getDataC (combinedCtor (combinedCtor ⟨none, 0⟩ false env).2 false env).2 =
      getDataC (combinedCtor ⟨none, 0⟩ false env).2 ∧
    (combinedCtor (combinedCtor ⟨none, 0⟩ false env).2 true env2).2 = ⟨some t2, 2⟩ ∧
    (env2 = env → t2 = t) := by
  have s1 : combinedCtor ⟨none, 0⟩ false env = (Except.ok (), ⟨some t, 1⟩) := by
    simp [combinedCtor, h]
  refine ⟨by rw [s1], ?_, ?_, ?_, ?_⟩
  · rw [s1]; simp [combinedCtor]
  · rw [s1]; simp [combinedCtor]
  · rw [s1]; simp [combinedCtor, h2]
  · rintro rfl
    rw [h] at h2
    exact (Except.ok.inj h2).symm

/-- Witness for C9 on a successfully building environment. -/
theorem combined_cache_idempotent_and_reload_witness :
    (combinedCtor ⟨none, 0⟩ false envGood).2 = ⟨some [], 1⟩ ∧
    (combinedCtor (combinedCtor ⟨none, 0⟩ false envGood).2 false envGood).2 = ⟨some [], 1⟩ ∧
    getDataC (combinedCtor (combinedCtor ⟨none, 0⟩ false envGood).2 false envGood).2 =
      getDataC (combinedCtor ⟨none, 0⟩ false envGood).2 ∧
    (combinedCtor (combinedCtor ⟨none, 0⟩ false envGood).2 true envGood).2 = ⟨some [], 2⟩ ∧
    (envGood = envGood → ([] : List Row) = []) :=
  combined_cache_idempotent_and_reload envGood envGood [] [] (by decide) (by decide)

theorem getD_append_left {α : Type} (l₁ l₂ : List α) (d : α) {n : Nat}
    (h : n < l₁.length) : (l₁ ++ l₂).getD n d = l₁.getD n d := by
  rw [List.getD_eq_getElem?_getD, List.getD_eq_getElem?_getD, List.getElem?_append, if_pos h]

theorem readRef_alloc {α : Type} [Inhabited α] (σ : Store α) (t : α) :
    readRef (alloc σ t).1 (alloc σ t).2 = t := by
  unfold readRef alloc
  rw [List.getD_eq_getElem?_getD, List.getElem?_append, if_neg (by omega)]
  simp

theorem readRef_alloc_old {α : Type} [Inhabited α] (σ : Store α) (t : α) {r : Nat}
    (h : r < σ.heap.length) : readRef (alloc σ t).1 r = readRef σ r := by
  unfold readRef alloc
  exact getD_append_left _ _ _ h

theorem readRef_writeRef_self {α : Type} [Inhabited α] (σ : Store α) {i : Nat}
    (h : i < σ.heap.length) (t : α) : readRef (writeRef σ i t) i = t := by
  unfold readRef writeRef
  rw [List.getD_eq_getElem?_getD, List.getElem?_set_self h]
  rfl

theorem readRef_writeRef_ne {α : Type} [Inhabited α] (σ : Store α) {i j : Nat}
    (h : i ≠ j) (t : α) : readRef (writeRef σ i t) j = readRef σ j := by
  unfold readRef writeRef
  rw [List.getD_eq_getElem?_getD, List.getElem?_set_ne h, ← List.getD_eq_getElem?_getD]

/-- **C7 (amended).**  `HMDExcessMortality.get_raw_data` and
`Combined.get_data` return the cached object itself: the reference handed
to the caller is the one in the class slot, so a mutation through it is
what every subsequent call sees.  `HMDExcessMortality.get_data`, by
contrast, returns a freshly allocated table whose address differs from
the cache's, and mutating it leaves the cached table unchanged. -/
theorem accessors_alias_cache (σ : Store PyObj) (force : Bool) (downloaded : List WRow)
    (t : PyObj) (σc : Store (List Row)) (rc : Nat) (tc : List Row)
    (hc : rc < σc.heap.length) (df : List WRow) (r : Nat)
    (hr : r < σ.heap.length) (hraw : readRef σ r = PyObj.raw df) (t3 : PyObj) :
    getRawDataRef (hmdInit σ none force downloaded).2 = (hmdInit σ none force downloaded).2 ∧
    (hmdInit σ none force downloaded).2 = some σ.heap.length ∧
    readRef (hmdInit σ none force downloaded).1 σ.heap.length = PyObj.raw downloaded ∧
    readRef (writeRef (hmdInit σ none force downloaded).1 σ.heap.length t) σ.heap.length = t ∧
    getDataCombinedRef (some rc) = some rc ∧
    readRef (writeRef σc rc tc) rc = tc ∧
    (getDataHeap σ (some r)).2 = some σ.heap.length ∧
    σ.heap.length ≠ r ∧
    readRef (getDataHeap σ (some r)).1 σ.heap.length = PyObj.derived (getData df) ∧
    readRef (writeRef (getDataHeap σ (some r)).1 σ.heap.length t3) r = readRef σ r := by
  have hinit : hmdInit σ none force downloaded
      = ((alloc σ (PyObj.raw downloaded)).1, some (alloc σ (PyObj.raw downloaded)).2) := by
    unfold hmdInit
    simp
  have hgd : getDataHeap σ (some r)
      = ((alloc σ (PyObj.derived (getData df))).1, some (alloc σ (PyObj.derived (getData df))).2) := by
    unfold getDataHeap
    dsimp only
    rw [hraw]
  have hlen : σ.heap.length < (alloc σ (PyObj.raw downloaded)).1.heap.length := by
    simp [alloc]
  refine ⟨rfl, by rw [hinit]; rfl, ?_, ?_, rfl, readRef_writeRef_self σc hc tc,
    by rw [hgd]; rfl, ?_, ?_, ?_⟩
  · rw [hinit]
    exact readRef_alloc σ _
  · rw [hinit]
    exact readRef_writeRef_self _ hlen t
  · omega
  · rw [hgd]
    exact readRef_alloc σ _
  · rw [hgd]
    rw [readRef_writeRef_ne _ (by omega) t3]
    exact readRef_alloc_old σ _ hr

/-- Counterexample refuting C7 as stated: after a fresh load, mutating
the table returned by `get_raw_data` changes the cached table, and the
next `get_raw_data` call sees the mutated table. -/
theorem accessors_alias_cache_cex :
    getRawDataRef (hmdInit ⟨[]⟩ none false [wSmall]).2 = some 0 ∧
    readRef (hmdInit ⟨[]⟩ none false [wSmall]).1 0 = PyObj.raw [wSmall] ∧
    readRef (writeRef (hmdInit ⟨[]⟩ none false [wSmall]).1 0 (PyObj.raw [])) 0 = PyObj.raw [] ∧
    PyObj.raw ([] : List WRow) ≠ PyObj.raw [wSmall] := by decide

/-- Witness for the amended C7 on a one-object heap. -/
theorem accessors_alias_cache_witness :
    getRawDataRef (hmdInit ⟨[PyObj.raw [wSmall]]⟩ none false [wSmall]).2 =
      (hmdInit ⟨[PyObj.raw [wSmall]]⟩ none false [wSmall]).2 ∧
    (hmdInit ⟨[PyObj.raw [wSmall]]⟩ none false [wSmall]).2 = some 1 ∧
    readRef (hmdInit ⟨[PyObj.raw [wSmall]]⟩ none false [wSmall]).1 1 = PyObj.raw [wSmall] ∧
    readRef (writeRef (hmdInit ⟨[PyObj.raw [wSmall]]⟩ none false [wSmall]).1 1 (PyObj.raw [])) 1 =
      PyObj.raw [] ∧
    getDataCombinedRef (some 0) = some 0 ∧
    readRef (writeRef (⟨[[]]⟩ : Store (List Row)) 0 []) 0 = [] ∧
    (getDataHeap ⟨[PyObj.raw [wSmall]]⟩ (some 0)).2 = some 1 ∧
    (1 : Nat) ≠ 0 ∧
    readRef (getDataHeap ⟨[PyObj.raw [wSmall]]⟩ (some 0)).1 1 = PyObj.derived (getData [wSmall]) ∧
    readRef (writeRef (getDataHeap ⟨[PyObj.raw [wSmall]]⟩ (some 0)).1 1 (PyObj.raw [])) 0 =
      readRef ⟨[PyObj.raw [wSmall]]⟩ 0 := by
  have h := accessors_alias_cache ⟨[PyObj.raw [wSmall]]⟩ false [wSmall] (PyObj.raw [])
    ⟨[[]]⟩ 0 [] (by decide) [wSmall] 0 (by decide) (by decide) (PyObj.raw [])
  simpa using h

theorem findNextVal_some_iff (vals : Int → Option ℚ) :
    ∀ (k : Nat) (d e : Int) (v : ℚ),
      findNextVal vals d k = some (e, v) ↔
        d < e ∧ e ≤ d + k ∧ vals e = some v ∧
          ∀ x : Int, d < x → x < e → vals x = none := by
  intro k
  induction k with
  | zero =>
    intro d e v
    constructor
    · intro h
      simp [findNextVal] at h
    · rintro ⟨h1, h2, -, -⟩
      omega
  | succ k ih =>
    intro d e v
    cases hv : vals (d + 1) with
    | some w =>
      simp only [findNextVal, hv, Option.some.injEq, Prod.mk.injEq]
      constructor
      · rintro ⟨rfl, rfl⟩
        exact ⟨by omega, by omega, hv, fun x h1 h2 => by omega⟩
      · rintro ⟨h1, h2, h3, h4⟩
        have he : e = d + 1 := by
          by_contra hne
          have hx : vals (d + 1) = none := h4 (d + 1) (by omega) (by omega)
          rw [hv] at hx
          cases hx
        subst he
        rw [hv] at h3
        exact ⟨rfl, Option.some.inj h3⟩
    | none =>
      simp only [findNextVal, hv]
      rw [ih (d + 1) e v]
      constructor
      · rintro ⟨h1, h2, h3, h4⟩
        refine ⟨by omega, by omega, h3, fun x hx1 hx2 => ?_⟩
        rcases eq_or_lt_of_le (by omega : d + 1 ≤ x) with h | h
        · rw [← h]
          exact hv
        · exact h4 x h hx2
      · rintro ⟨h1, h2, h3, h4⟩
        have hne : e ≠ d + 1 := by
          intro he
          rw [he, hv] at h3
          cases h3
        exact ⟨by omega, by omega, h3, fun x hx1 hx2 => h4 x (by omega) hx2⟩

theorem bfillLimit7_present (vals : Int → Option ℚ) (hi d : Int) (v : ℚ)
    (h : vals d = some v) : bfillLimit7 vals hi d = some v := by
  unfold bfillLimit7
  rw [h]

theorem bfillLimit7_missing_iff (vals : Int → Option ℚ) (hi d : Int) (v : ℚ)
    (hd : vals d = none) :
    bfillLimit7 vals hi d = some v ↔
      ∃ e : Int, d < e ∧ e ≤ d + 7 ∧ e ≤ hi ∧ vals e = some v ∧
        ∀ x : Int, d < x → x < e → vals x = none := by
  unfold bfillLimit7
  rw [hd]
  dsimp only
  rw [Option.map_eq_some']
  constructor
  · rintro ⟨⟨e, w⟩, hfind, rfl⟩
    rw [findNextVal_some_iff] at hfind
    obtain ⟨h1, h2, h3, h4⟩ := hfind
    exact ⟨e, h1, by omega, by omega, h3, h4⟩
  · rintro ⟨e, h1, h2, h3, h4, h5⟩
    refine ⟨(e, v), ?_, rfl⟩
    rw [findNextVal_some_iff]
    exact ⟨h1, by omega, h4, h5⟩

/-- **C5.** `_resample` reindexes each group onto every calendar day of
`[first_week_end − 6, last_week_end]`; a day that already carries a value
keeps it, and a missing day receives the value of the nearest week-end on
or after it if and only if that week-end is at most 7 days away — so the
backward fill never reaches further back than one week, and each week-end
populates at most the 7 days immediately before it (a week with no
successor fills no more than 7 days). -/
theorem resample_reindex_and_bfill (rows : List DRow) (d : Int) (v : ℚ) :
    (resample rows).map Prod.fst = dateRange (minDate rows - 6) (maxDate rows) ∧
    (lookupDate rows d = some v → d ∈ dateRange (minDate rows - 6) (maxDate rows) →
      (d, some v) ∈ resample rows) ∧
    (lookupDate rows d = none →
      ((d, some v) ∈ resample rows ↔
        d ∈ dateRange (minDate rows - 6) (maxDate rows) ∧
        ∃ e : Int, d < e ∧ e ≤ d + 7 ∧ e ≤ maxDate rows ∧ lookupDate rows e = some v ∧
          ∀ x : Int, d < x → x < e → lookupDate rows x = none)) := by
  have hmem : ∀ o : Option ℚ, ((d, o) ∈ resample rows ↔
      d ∈ dateRange (minDate rows - 6) (maxDate rows) ∧
      bfillLimit7 (lookupDate rows) (maxDate rows) d = o) := by
    intro o
    unfold resample
    rw [List.mem_map]
    constructor
    · rintro ⟨a, ha, heq⟩
      obtain ⟨h1, h2⟩ := Prod.mk.injEq _ _ _ _ ▸ heq
      exact ⟨h1 ▸ ha, h1 ▸ h2⟩
    · rintro ⟨hd, hb⟩
      exact ⟨d, hd, by rw [hb]⟩
  refine ⟨?_, ?_, ?_⟩
  · unfold resample
    rw [List.map_map]
    show List.map (fun a => a) _ = _
    exact List.map_id _
  · intro hv hd
    rw [hmem (some v)]
    exact ⟨hd, bfillLimit7_present _ _ _ _ hv⟩
  · intro hnone
    rw [hmem (some v), bfillLimit7_missing_iff _ _ _ _ hnone]

/-- Witness for C5 on `grpT2`: the reindexed axis is days 1–21, and the
missing day 14 is filled backward from the week ending on day 21 (which
is exactly 7 days away). -/
theorem resample_reindex_and_bfill_witness :
    (resample grpT2).map Prod.fst = dateRange (minDate grpT2 - 6) (maxDate grpT2) ∧
    ((14 : Int), some (2 : ℚ)) ∈ resample grpT2 := by
  have h := resample_reindex_and_bfill grpT2 14 2
  refine ⟨h.1, ?_⟩
  apply (h.2.2 (by decide)).mpr
  refine ⟨by decide, 21, by decide, by decide, by decide, by decide, ?_⟩
  intro x h1 h2
  have e1 : ((7 : Int) == x) = false := by simp; omega
  have e2 : ((21 : Int) == x) = false := by simp; omega
  simp [lookupDate, grpT2, List.find?, e1, e2]

theorem lt_length_of_getD_some {β : Type} {l : List (Option β)} {j : Nat} {x : β}
    (h : l.getD j none = some x) : j < l.length := by
  by_contra hc
  rw [List.getD_eq_default _ _ (by omega)] at h
  cases h

theorem filter_singleton_length_le {α : Type} (p : α → Bool) (a : α) :
    (List.filter p [a]).length ≤ 1 := by
  cases h : p a <;> simp [List.filter_cons, h]

theorem mergeTS_cons (w : Nat) (b : Row) (t s : List Row) :
    mergeTS w (b :: t) s =
      (match s.filter (fun c => c.iso == b.iso && c.date == b.date) with
       | [] => [{ b with vals := b.vals ++ List.replicate w none }]
       | ms => ms.map fun c => { b with vals := b.vals ++ c.vals }) ++ mergeTS w t s := by
  unfold mergeTS
  rw [List.flatMap_cons]

theorem mergeStatic_cons (w : Nat) (b : Row) (t : List Row) (s : List SRow) :
    mergeStatic w (b :: t) s =
      (match s.filter (fun c => c.iso == b.iso) with
       | [] => [{ b with vals := b.vals ++ List.replicate w none }]
       | ms => ms.map fun c => { b with vals := b.vals ++ c.vals }) ++ mergeStatic w t s := by
  unfold mergeStatic
  rw [List.flatMap_cons]

theorem keysTS_mergeTS (w : Nat) (t s : List Row)
    (h : ∀ b : Row, (s.filter fun c => c.iso == b.iso && c.date == b.date).length ≤ 1) :
    keysTS (mergeTS w t s) = keysTS t := by
  induction t with
  | nil => rfl
  | cons b t ih =>
    have hhead : List.map (fun r => (r.iso, r.date))
        (match s.filter (fun c => c.iso == b.iso && c.date == b.date) with
         | [] => [{ b with vals := b.vals ++ List.replicate w none }]
         | ms => ms.map fun c => { b with vals := b.vals ++ c.vals })
        = [(b.iso, b.date)] := by
      cases hms : s.filter (fun c => c.iso == b.iso && c.date == b.date) with
      | nil => rfl
      | cons c ms =>
        have hlen := h b
        rw [hms] at hlen
        rw [List.length_cons] at hlen
        have hms0 : ms = [] := List.length_eq_zero.1 (by omega)
        subst hms0
        rfl
    rw [mergeTS_cons]
    unfold keysTS at ih ⊢
    rw [List.map_append, hhead, List.singleton_append, List.map_cons, ih]

theorem keysTS_mergeStatic (w : Nat) (t : List Row) (s : List SRow)
    (h : ∀ b : Row, (s.filter fun c => c.iso == b.iso).length ≤ 1) :
    keysTS (mergeStatic w t s) = keysTS t := by
  induction t with
  | nil => rfl
  | cons b t ih =>
    have hhead : List.map (fun r => (r.iso, r.date))
        (match s.filter (fun c => c.iso == b.iso) with
         | [] => [{ b with vals := b.vals ++ List.replicate w none }]
         | ms => ms.map fun c => { b with vals := b.vals ++ c.vals })
        = [(b.iso, b.date)] := by
      cases hms : s.filter (fun c => c.iso == b.iso) with
      | nil => rfl
      | cons c ms =>
        have hlen := h b
        rw [hms] at hlen
        rw [List.length_cons] at hlen
        have hms0 : ms = [] := List.length_eq_zero.1 (by omega)
        subst hms0
        rfl
    rw [mergeStatic_cons]
    unfold keysTS at ih ⊢
    rw [List.map_append, hhead, List.singleton_append, List.map_cons, ih]

theorem keysTS_fillZero (t : List Row) : keysTS (fillZero t) = keysTS t := by
  unfold keysTS fillZero
  rw [List.map_map]
  rfl

theorem range_map_getD (t : List Row) {β : Type} (f : Row → β) :
    (List.range t.length).map (fun i => f (t.getD i default)) = t.map f := by
  induction t with
  | nil => rfl
  | cons b t ih =>
    rw [List.length_cons, List.range_succ_eq_map, List.map_cons, List.map_map, List.map_cons]
    refine congrArg (List.cons _) ?_
    exact ih

theorem keysTS_ffillByIso (t : List Row) : keysTS (ffillByIso t) = keysTS t := by
  unfold keysTS ffillByIso
  rw [List.map_map]
  exact range_map_getD t (fun r => (r.iso, r.date))

/-- **C3.** With every joined source contributing at most one row per its
key (time-varying tables per `(country_code, date)`, static tables per
`country_code`) and the policy table free of duplicate keys, the entire
join sequence of `_create_data` neither multiplies nor drops rows: the
final key column equals the policy anchor's key column, and the
`(country_code, date)` pairs of the combined table are unique. -/
theorem combined_keys_unique (env : Env) (mort : List Row)
    (hpol : (keysTS env.pol).Nodup)
    (hmasks : ∀ b : Row, (env.masks.filter fun c => c.iso == b.iso && c.date == b.date).length ≤ 1)
    (hcases : ∀ b : Row, (env.cases.filter fun c => c.iso == b.iso && c.date == b.date).length ≤ 1)
    (hmob : ∀ b : Row, (env.mob.filter fun c => c.iso == b.iso && c.date == b.date).length ≤ 1)
    (hmort : ∀ b : Row, (mort.filter fun c => c.iso == b.iso && c.date == b.date).length ≤ 1)
    (hages : ∀ b : Row, (env.ages.filter fun c => c.iso == b.iso).length ≤ 1)
    (hrefs : ∀ b : Row, (env.refs.filter fun c => c.iso == b.iso).length ≤ 1) :
    keysTS (createDataJoins env mort) = keysTS env.pol ∧
    (keysTS (createDataJoins env mort)).Nodup := by
  have hkeys : keysTS (createDataJoins env mort) = keysTS env.pol := by
    unfold createDataJoins createInterventions
    rw [keysTS_mergeTS _ _ _ hmort,
        keysTS_mergeStatic _ _ _ hrefs,
        keysTS_mergeStatic _ _ _ hages,
        keysTS_mergeTS _ _ _ hmob,
        keysTS_fillZero,
        keysTS_mergeTS _ _ _ hcases,
        keysTS_fillZero,
        keysTS_ffillByIso,
        keysTS_mergeTS _ _ _ hmasks]
  exact ⟨hkeys, by rw [hkeys]; exact hpol⟩

/-- Witness for C3 on the two-row policy anchor with all other sources
empty. -/
theorem combined_keys_unique_witness :
    keysTS (createDataJoins envPol []) = keysTS envPol.pol ∧
    (keysTS (createDataJoins envPol [])).Nodup :=
  combined_keys_unique envPol [] (by decide) (fun b => by simp [envPol])
    (fun b => by simp [envPol]) (fun b => by simp [envPol]) (fun b => by simp)
    (fun b => by simp [envPol]) (fun b => by simp [envPol])

theorem ffillByIso_getD (t : List Row) {i : Nat} (hi : i < t.length) :
    (ffillByIso t).getD i default =
      { t.getD i default with
        vals := (List.range (t.getD i default).vals.length).map fun j =>
          match (t.getD i default).vals.getD j none with
          | some v => some v
          | none => lastVal (prevSameIso t i) j } := by
  unfold ffillByIso
  rw [List.getD_eq_getElem?_getD, List.getElem?_map, List.getElem?_range hi]
  rfl

theorem length_ffillByIso (t : List Row) : (ffillByIso t).length = t.length := by
  unfold ffillByIso
  rw [List.length_map, List.length_range]

theorem cellAt_ffillByIso (t : List Row) {i : Nat} (hi : i < t.length) (j : Nat) :
    cellAt (ffillByIso t) i j =
      if j < (t.getD i default).vals.length then
        match cellAt t i j with
        | some v => some v
        | none => lastVal (prevSameIso t i) j
      else none := by
  unfold cellAt
  rw [ffillByIso_getD t hi]
  by_cases hj : j < (t.getD i default).vals.length
  · rw [if_pos hj]
    dsimp only
    rw [getD_map_range _ _ hj]
  · rw [if_neg hj]
    dsimp only
    rw [List.getD_eq_default]
    rw [List.length_map, List.length_range]
    omega

theorem cellAt_fillZero (t : List Row) {i j : Nat} (hi : i < t.length)
    (hj : j < (t.getD i default).vals.length) :
    cellAt (fillZero t) i j = some ((cellAt t i j).getD 0) := by
  have hrow : (fillZero t).getD i default = fillZeroRow (t.getD i default) := by
    unfold fillZero
    rw [List.getD_eq_getElem?_getD (t.map fillZeroRow) i default, List.getElem?_map,
        List.getD_eq_getElem?_getD t i default, List.getElem?_eq_getElem hi]
    rfl
  unfold cellAt
  rw [hrow]
  unfold fillZeroRow
  dsimp only
  rw [List.getD_eq_getElem?_getD ((t.getD i default).vals.map (fun v => some (v.getD 0))) j none,
      List.getElem?_map,
      List.getD_eq_getElem?_getD (t.getD i default).vals j none,
      List.getElem?_eq_getElem hj]
  rfl


theorem vals_length_ffillByIso (t : List Row) {i : Nat} (hi : i < t.length) :
    ((ffillByIso t).getD i default).vals.length = (t.getD i default).vals.length := by
  rw [ffillByIso_getD t hi]
  dsimp only
  rw [List.length_map, List.length_range]

theorem lastVal_eq_none (rows : List Row) (j : Nat)
    (h : ∀ p ∈ rows, p.vals.getD j none = none) : lastVal rows j = none := by
  unfold lastVal
  rw [List.filterMap_eq_nil_iff.2 h]
  rfl

theorem lastVal_append_some (xs : List Row) (r : Row) (ys : List Row) (j : Nat) (v : ℚ)
    (hr : r.vals.getD j none = some v)
    (hys : ∀ p ∈ ys, p.vals.getD j none = none) :
    lastVal (xs ++ r :: ys) j = some v := by
  unfold lastVal
  rw [List.filterMap_append, List.filterMap_cons, hr,
      List.filterMap_eq_nil_iff.2 hys]
  exact List.getLast?_concat _

theorem cellAt_createInterventions (pol masks : List Row) {k j : Nat}
    (hk : k < (mergeTS 1 pol masks).length)
    (hj : j < ((mergeTS 1 pol masks).getD k default).vals.length) :
    cellAt (createInterventions pol masks) k j =
      some ((match cellAt (mergeTS 1 pol masks) k j with
             | some v => some v
             | none => lastVal (prevSameIso (mergeTS 1 pol masks) k) j).getD 0) := by
  unfold createInterventions
  rw [cellAt_fillZero _ (by rw [length_ffillByIso]; exact hk)
        (by rw [vals_length_ffillByIso _ hk]; exact hj),
      cellAt_ffillByIso _ hk, if_pos hj]

/-- **C4 (amended).**  `_create_interventions_data` forward-fills every
column within each country's own partition of the merged table, in row
order — a missing cell takes the nearest preceding non-missing cell of the
same country and column, never another country's — and the remaining
leading gaps become zero.  It creates no rows: the output keys are exactly
the policy table's `(country_code, date)` pairs, so a date absent from the
policy table (such as 2020-01-02 in the spec's example) gets no row. -/
theorem interventions_ffill_zero (pol masks : List Row)
    (hmasks : ∀ b : Row, (masks.filter fun c => c.iso == b.iso && c.date == b.date).length ≤ 1) :
    keysTS (createInterventions pol masks) = keysTS pol ∧
    (∀ k j v, k < (mergeTS 1 pol masks).length →
      cellAt (mergeTS 1 pol masks) k j = some v →
      cellAt (createInterventions pol masks) k j = some v) ∧
    (∀ t₁ r t₂ g t₃ j v,
      mergeTS 1 pol masks = t₁ ++ r :: t₂ ++ g :: t₃ →
      g.iso = r.iso → j < g.vals.length →
      r.vals.getD j none = some v → g.vals.getD j none = none →
      (∀ p ∈ t₂, p.iso = r.iso → p.vals.getD j none = none) →
      cellAt (createInterventions pol masks) (t₁ ++ r :: t₂).length j = some v) ∧
    (∀ k j, k < (mergeTS 1 pol masks).length →
      j < ((mergeTS 1 pol masks).getD k default).vals.length →
      cellAt (mergeTS 1 pol masks) k j = none →
      (∀ p ∈ (mergeTS 1 pol masks).take k,
        p.iso = ((mergeTS 1 pol masks).getD k default).iso → p.vals.getD j none = none) →
      cellAt (createInterventions pol masks) k j = some 0) := by
  refine ⟨?_, ?_, ?_, ?_⟩
  · unfold createInterventions
    rw [keysTS_fillZero, keysTS_ffillByIso, keysTS_mergeTS _ _ _ hmasks]
  · intro k j v hk hv
    have hj : j < ((mergeTS 1 pol masks).getD k default).vals.length := by
      unfold cellAt at hv
      exact lt_length_of_getD_some hv
    rw [cellAt_createInterventions pol masks hk hj, hv]
    rfl
  · intro t₁ r t₂ g t₃ j v ht hiso hj hr hg hmem
    have ht2 : mergeTS 1 pol masks = (t₁ ++ r :: t₂) ++ g :: t₃ := by
      rw [ht, List.append_assoc, List.cons_append]
    have hk : (t₁ ++ r :: t₂).length < (mergeTS 1 pol masks).length := by
      rw [ht2, List.length_append]
      simp
    have hgetD : (mergeTS 1 pol masks).getD (t₁ ++ r :: t₂).length default = g := by
      rw [ht2, List.getD_eq_getElem?_getD, List.getElem?_append, if_neg (by omega), Nat.sub_self]
      simp
    have hjlen : j < ((mergeTS 1 pol masks).getD (t₁ ++ r :: t₂).length default).vals.length := by
      rw [hgetD]
      exact hj
    have htake : (mergeTS 1 pol masks).take (t₁ ++ r :: t₂).length = t₁ ++ r :: t₂ := by
      rw [ht2, ← Nat.add_zero (t₁ ++ r :: t₂).length, List.take_append]
      simp
    have hcellg : cellAt (mergeTS 1 pol masks) (t₁ ++ r :: t₂).length j = none := by
      unfold cellAt
      rw [hgetD]
      exact hg
    have hlast : lastVal (prevSameIso (mergeTS 1 pol masks) (t₁ ++ r :: t₂).length) j
        = some v := by
      unfold prevSameIso
      rw [htake, hgetD, List.filter_append, List.filter_cons,
          if_pos (by rw [hiso]; exact beq_self_eq_true _)]
      apply lastVal_append_some _ _ _ _ _ hr
      intro p hp
      obtain ⟨hp2, hbeq⟩ := List.mem_filter.1 hp
      have hpg : p.iso = g.iso := eq_of_beq hbeq
      rw [hiso] at hpg
      exact hmem p hp2 hpg
    rw [cellAt_createInterventions pol masks hk hjlen, hcellg]
    show some ((lastVal (prevSameIso (mergeTS 1 pol masks) (t₁ ++ r :: t₂).length) j).getD 0)
        = some v
    rw [hlast]
    rfl
  · intro k j hk hj hcnone hprev
    have hlast : lastVal (prevSameIso (mergeTS 1 pol masks) k) j = none := by
      apply lastVal_eq_none
      intro p hp
      unfold prevSameIso at hp
      obtain ⟨hp2, hbeq⟩ := List.mem_filter.1 hp
      exact hprev p hp2 (eq_of_beq hbeq)
    rw [cellAt_createInterventions pol masks hk hj, hcnone]
    show some ((lastVal (prevSameIso (mergeTS 1 pol masks) k) j).getD 0) = some 0
    rw [hlast]
    rfl

/-- Counterexample refuting C4 as stated: the spec's example input yields
only the two policy dates — there is no row for 2020-01-02 (day 2) at
all, hence no row forward-filled to `Stringency=10`. -/
theorem interventions_no_date_rows_cex :
    createInterventions polT [] =
      [{ iso := "AAA", date := 1, name := "Aland", vals := [some 10, some 0] },
       { iso := "AAA", date := 3, name := "Aland", vals := [some 20, some 0] }] ∧
    (∀ r ∈ createInterventions polT [], r.date ≠ 2) := by
  refine ⟨by decide, by decide⟩

/-- Witness for the amended C4: keys are the policy keys; the present
Stringency value 20 survives; the mask gap on day 3 inherits day 1's mask
value 5 within country AAA; and with no mask source at all the mask
column zero-fills. -/
theorem interventions_ffill_zero_witness :
    keysTS (createInterventions polT maskT) = keysTS polT ∧
    cellAt (createInterventions polT maskT) 1 0 = some 20 ∧
    cellAt (createInterventions polT maskT) 1 1 = some 5 ∧
    cellAt (createInterventions polT []) 0 1 = some 0 := by
  have h := interventions_ffill_zero polT maskT (fun b => filter_singleton_length_le _ _)
  have h0 := interventions_ffill_zero polT [] (fun b => by simp)
  refine ⟨h.1, ?_, ?_, ?_⟩
  · exact h.2.1 1 0 20 (by decide) (by decide)
  · simpa using h.2.2.1 [] mrow1 [] mrow2 [] 1 5 (by decide) (by decide) (by decide)
      (by decide) (by decide) (by simp)
  · exact h0.2.2.2 0 1 (by decide) (by decide) (by decide) (by simp)

end Covid19
